import Mathlib

/-!
# Verification of the Node executor core (src/src/lib/executors/Node.ts)

This file gives a shallow embedding of the parts of the Node executor that the
frozen claims talk about:

* the bounded-concurrency FIFO scheduler `FunctionQueue` (source lines 1021-1069);
* the teardown sequence `_afterRun` (lines 284-312);
* the session-suite `after` teardown hook built in `_createSessionSuites`
  (lines 485-522), together with the `Suite` failure-aggregation data it reads;
* the remote-machinery entry decision in `_beforeRun` (lines 314-413);
* `instrumentCode` (lines 210-240);
* the process-wide `unhandledRejection` / `uncaughtException` handlers installed
  by the constructor (lines 128-152);
* the `coverage` branch of `_processOption` (lines 618-629).

Asynchronous (Task/Promise) code is embedded as explicit state passing: the
settlement of a task is an explicit event, and event emission is modelled as an
accumulated event list.  Jobs, errors, coverage baselines and source maps are
identified by `Nat` ids; their payloads are irrelevant to the claims.
-/

/-! ## FunctionQueue (source lines 1021-1069)

The scheduler state.  `queue`, `activeTasks` and `funcTasks` are the three
arrays of the source (jobs stand for the tasks they produce, identified by
`Nat` ids).  `handleState` records the settlement state of each funcTask
handle returned by `enqueue`.  `startedOrder` and `enqueuedOrder` are ghost
observation lists recording the order in which jobs were started (the order in
which `next` invoked their `func`) and enqueued. -/

/-- Settlement state of a Dojo `Task` handle. -/
inductive HState where
  | pending
  | resolved
  | rejected
  | canceled
deriving DecidableEq, Repr

structure FunctionQueue where
  maxConcurrency : Nat
  queue : List Nat
  activeTasks : List Nat
  funcTasks : List Nat
  handleState : Nat → Option HState
  startedOrder : List Nat
  enqueuedOrder : List Nat

def FunctionQueue.init (m : Nat) : FunctionQueue :=
  { maxConcurrency := m
    queue := []
    activeTasks := []
    funcTasks := []
    handleState := fun _ => none
    startedOrder := []
    enqueuedOrder := [] }

/-- Method `next()` (lines 1055-1068): if the backlog is nonempty, shift its first
entry, call its `func` (the job starts: it is appended to `startedOrder`), and
push the resulting task onto `activeTasks`. -/
def FunctionQueue.next (q : FunctionQueue) : FunctionQueue :=
  match q.queue with
  | [] => q
  | j :: rest =>
    { q with
      queue := rest
      activeTasks := q.activeTasks ++ [j]
      startedOrder := q.startedOrder ++ [j] }

/-- Method `enqueue(func)` (lines 1034-1045): create the funcTask handle (its executor
synchronously pushes the entry onto `queue`), push the handle onto `funcTasks`,
and promote via `next()` only when fewer than `maxConcurrency` tasks are
active. -/
def FunctionQueue.enqueue (q : FunctionQueue) (j : Nat) : FunctionQueue :=
  let q1 : FunctionQueue :=
    { q with
      queue := q.queue ++ [j]
      funcTasks := q.funcTasks ++ [j]
      handleState := fun k => if k = j then some HState.pending else q.handleState k
      enqueuedOrder := q.enqueuedOrder ++ [j] }
  if q1.activeTasks.length < q1.maxConcurrency then q1.next else q1

def settleOutcome (ok : Bool) : HState :=
  if ok then HState.resolved else HState.rejected

/-- Modelled from the spec: `pullFromArray` (from `../common/util`, which is not
under `src/`) removes the given task from the active set. -/
def pullFromArray (haystack : List Nat) (needle : Nat) : List Nat :=
  haystack.filter (fun k => k != needle)

/-- The settlement of the task started for job `j` (the
`.then(resolve, reject).finally(...)` chain built in `next`, lines 1058-1065):
the funcTask handle settles to the job's own outcome (a no-op if the handle is
no longer pending, e.g. after `clear` canceled it), the task is pulled from
`activeTasks`, and `next()` is kicked off. -/
def FunctionQueue.taskSettled (q : FunctionQueue) (j : Nat) (ok : Bool) : FunctionQueue :=
  let q1 : FunctionQueue :=
    { q with
      handleState := fun k =>
        if k = j ∧ q.handleState k = some HState.pending then some (settleOutcome ok)
        else q.handleState k
      activeTasks := pullFromArray q.activeTasks j }
  q1.next

/-- Method `clear()` (lines 1047-1053): cancel every active task and every funcTask
handle (cancelation of an already-settled handle is a no-op), then empty all
three arrays. -/
def FunctionQueue.clear (q : FunctionQueue) : FunctionQueue :=
  { q with
    handleState := fun k =>
      if k ∈ q.funcTasks ∧ q.handleState k = some HState.pending then some HState.canceled
      else q.handleState k
    activeTasks := []
    funcTasks := []
    queue := [] }

/-- The externally visible events driving a scheduler: an `enqueue` call, the
settlement of a started job's task, and a `clear` call. -/
inductive FQEvent where
  | enq (j : Nat)
  | settled (j : Nat) (ok : Bool)
  | clear
deriving DecidableEq, Repr

def FunctionQueue.step (q : FunctionQueue) : FQEvent → FunctionQueue
  | FQEvent.enq j => q.enqueue j
  | FQEvent.settled j ok => q.taskSettled j ok
  | FQEvent.clear => q.clear

/-- An event is well-formed in a state when enqueued jobs are fresh and only a
currently active (started, unsettled) job can settle. -/
def FunctionQueue.validStep (q : FunctionQueue) : FQEvent → Prop
  | FQEvent.enq j => j ∉ q.enqueuedOrder
  | FQEvent.settled j _ => j ∈ q.activeTasks
  | FQEvent.clear => True

instance (q : FunctionQueue) : (e : FQEvent) → Decidable (q.validStep e)
  | FQEvent.enq j => inferInstanceAs (Decidable (j ∉ q.enqueuedOrder))
  | FQEvent.settled j _ => inferInstanceAs (Decidable (j ∈ q.activeTasks))
  | FQEvent.clear => inferInstanceAs (Decidable True)

def FunctionQueue.validRun : FunctionQueue → List FQEvent → Prop
  | _, [] => True
  | q, e :: rest => q.validStep e ∧ (q.step e).validRun rest

instance instDecidableValidRun (q : FunctionQueue) (evs : List FQEvent) :
    Decidable (q.validRun evs) :=
  match evs with
  | [] => isTrue trivial
  | e :: rest =>
    have : Decidable ((q.step e).validRun rest) := instDecidableValidRun (q.step e) rest
    inferInstanceAs (Decidable (q.validStep e ∧ (q.step e).validRun rest))

def FunctionQueue.runEvents (q : FunctionQueue) (evs : List FQEvent) : FunctionQueue :=
  evs.foldl FunctionQueue.step q

/-! ### Scheduler invariants -/

/-- Removing a present element strictly shrinks the list. -/
lemma pullFromArray_length_lt {l : List Nat} {j : Nat} (h : j ∈ l) :
    (pullFromArray l j).length + 1 ≤ l.length := by
  induction l with
  | nil => cases h
  | cons a t ih =>
    by_cases haj : a = j
    · subst haj
      have := List.length_filter_le (fun k => k != a) t
      simpa [pullFromArray] using this
    · have hjt : j ∈ t := by
        rcases List.mem_cons.mp h with h' | h'
        · exact absurd h'.symm haj
        · exact h'
      have := ih hjt
      simpa [pullFromArray, List.filter_cons, haj] using this

/-- The invariant behind claim C1: the active set is bounded by the configured
maximum, and the jobs started so far followed by the backlog are exactly the
jobs enqueued so far, in enqueue order. -/
def FQInv (q : FunctionQueue) : Prop :=
  q.activeTasks.length ≤ q.maxConcurrency ∧
  q.startedOrder ++ q.queue = q.enqueuedOrder

lemma FQInv_next {q : FunctionQueue}
    (hfifo : q.startedOrder ++ q.queue = q.enqueuedOrder)
    (hnil : q.queue = [] → q.activeTasks.length ≤ q.maxConcurrency)
    (hlt : q.queue ≠ [] → q.activeTasks.length < q.maxConcurrency) :
    FQInv q.next := by
  unfold FunctionQueue.next
  cases hq : q.queue with
  | nil => exact ⟨hnil hq, by simpa [hq] using hfifo⟩
  | cons j rest =>
    refine ⟨?_, ?_⟩
    · simpa using hlt (by simp [hq])
    · rw [hq] at hfifo
      simpa using hfifo

lemma FQInv_step {q : FunctionQueue} {e : FQEvent} (hinv : FQInv q)
    (hv : q.validStep e) (hne : e ≠ FQEvent.clear) : FQInv (q.step e) := by
  obtain ⟨hb, hf⟩ := hinv
  cases e with
  | enq j =>
    show FQInv (q.enqueue j)
    unfold FunctionQueue.enqueue
    by_cases hc : q.activeTasks.length < q.maxConcurrency
    · simp only [hc, if_true]
      refine FQInv_next ?_ ?_ ?_
      · simpa [List.append_assoc] using congrArg (fun l => l ++ [j]) hf
      · intro _; exact hb
      · intro _; exact hc
    · simp only [hc, if_false]
      refine ⟨hb, ?_⟩
      simpa [List.append_assoc] using congrArg (fun l => l ++ [j]) hf
  | settled j ok =>
    show FQInv (q.taskSettled j ok)
    unfold FunctionQueue.taskSettled
    refine FQInv_next hf ?_ ?_
    · intro _
      exact le_trans (List.length_filter_le _ _) hb
    · intro _
      have hmem : j ∈ q.activeTasks := hv
      have hlen := pullFromArray_length_lt hmem
      dsimp only
      omega
  | clear => exact absurd rfl hne

lemma FunctionQueue.next_maxConcurrency (q : FunctionQueue) :
    q.next.maxConcurrency = q.maxConcurrency := by
  unfold FunctionQueue.next
  cases q.queue <;> rfl

lemma FunctionQueue.step_maxConcurrency (q : FunctionQueue) (e : FQEvent) :
    (q.step e).maxConcurrency = q.maxConcurrency := by
  cases e with
  | enq j =>
    show (q.enqueue j).maxConcurrency = q.maxConcurrency
    unfold FunctionQueue.enqueue
    by_cases hc : q.activeTasks.length < q.maxConcurrency
    · simp only [hc, if_true, FunctionQueue.next_maxConcurrency]
    · simp only [hc, if_false]
  | settled j ok =>
    show (q.taskSettled j ok).maxConcurrency = q.maxConcurrency
    unfold FunctionQueue.taskSettled
    rw [FunctionQueue.next_maxConcurrency]
  | clear => rfl

lemma FunctionQueue.runEvents_maxConcurrency (q : FunctionQueue) (evs : List FQEvent) :
    (q.runEvents evs).maxConcurrency = q.maxConcurrency := by
  induction evs generalizing q with
  | nil => rfl
  | cons e rest ih =>
    show ((q.step e).runEvents rest).maxConcurrency = q.maxConcurrency
    rw [ih, FunctionQueue.step_maxConcurrency]

lemma FQInv_runEvents {q : FunctionQueue} {evs : List FQEvent} (hinv : FQInv q)
    (hv : q.validRun evs) (hnc : FQEvent.clear ∉ evs) : FQInv (q.runEvents evs) := by
  induction evs generalizing q with
  | nil => exact hinv
  | cons e rest ih =>
    obtain ⟨hv1, hv2⟩ := hv
    have hne : e ≠ FQEvent.clear := fun h => hnc (h ▸ List.mem_cons_self e rest)
    exact ih (FQInv_step hinv hv1 hne) hv2 (fun h => hnc (List.mem_cons_of_mem _ h))

lemma FunctionQueue.validRun_take {q : FunctionQueue} {evs : List FQEvent}
    (hv : q.validRun evs) (n : Nat) : q.validRun (evs.take n) := by
  induction evs generalizing q n with
  | nil => simp [FunctionQueue.validRun]
  | cons e rest ih =>
    cases n with
    | zero => exact trivial
    | succ n =>
      obtain ⟨hv1, hv2⟩ := hv
      exact ⟨hv1, ih hv2 n⟩

/-- C1: for every valid event sequence on a `FunctionQueue` with maximum
concurrency `m` and containing no `clear`, at every instant (i.e. after every
prefix of the events) the number of active tasks is at most `m`, the jobs
started so far followed by the backlog are exactly the enqueued jobs in
enqueue order, and hence the k-th job to start is the k-th job enqueued
(`startedOrder` is the initial segment of `enqueuedOrder`). -/
theorem functionQueue_fifo_and_bounded (m : Nat) (evs : List FQEvent) (n : Nat)
    (hvalid : (FunctionQueue.init m).validRun evs)
    (hnoclear : FQEvent.clear ∉ evs) :
    ((FunctionQueue.init m).runEvents (evs.take n)).activeTasks.length ≤ m ∧
    ((FunctionQueue.init m).runEvents (evs.take n)).startedOrder ++
        ((FunctionQueue.init m).runEvents (evs.take n)).queue =
      ((FunctionQueue.init m).runEvents (evs.take n)).enqueuedOrder ∧
    ((FunctionQueue.init m).runEvents (evs.take n)).enqueuedOrder.take
        ((FunctionQueue.init m).runEvents (evs.take n)).startedOrder.length =
      ((FunctionQueue.init m).runEvents (evs.take n)).startedOrder := by
  have hv := FunctionQueue.validRun_take hvalid n
  have hnc : FQEvent.clear ∉ evs.take n := fun h => hnoclear (List.take_subset n evs h)
  have hinv0 : FQInv (FunctionQueue.init m) := ⟨by simp [FunctionQueue.init], rfl⟩
  have h := FQInv_runEvents hinv0 hv hnc
  have hm : ((FunctionQueue.init m).runEvents (evs.take n)).maxConcurrency = m :=
    FunctionQueue.runEvents_maxConcurrency (FunctionQueue.init m) (evs.take n)
  refine ⟨le_trans h.1 (le_of_eq hm), h.2, ?_⟩
  rw [← h.2]
  exact List.take_left _ _

/-- Witness for C1: a concrete valid run with `m = 2` and five events. -/
theorem functionQueue_fifo_and_bounded_witness :
    ((FunctionQueue.init 2).runEvents
        ([FQEvent.enq 0, FQEvent.enq 1, FQEvent.enq 2,
          FQEvent.settled 0 true, FQEvent.settled 1 false].take 5)).activeTasks.length ≤ 2 ∧
    ((FunctionQueue.init 2).runEvents
        ([FQEvent.enq 0, FQEvent.enq 1, FQEvent.enq 2,
          FQEvent.settled 0 true, FQEvent.settled 1 false].take 5)).startedOrder ++
        ((FunctionQueue.init 2).runEvents
          ([FQEvent.enq 0, FQEvent.enq 1, FQEvent.enq 2,
            FQEvent.settled 0 true, FQEvent.settled 1 false].take 5)).queue =
      ((FunctionQueue.init 2).runEvents
        ([FQEvent.enq 0, FQEvent.enq 1, FQEvent.enq 2,
          FQEvent.settled 0 true, FQEvent.settled 1 false].take 5)).enqueuedOrder ∧
    ((FunctionQueue.init 2).runEvents
        ([FQEvent.enq 0, FQEvent.enq 1, FQEvent.enq 2,
          FQEvent.settled 0 true, FQEvent.settled 1 false].take 5)).enqueuedOrder.take
        ((FunctionQueue.init 2).runEvents
          ([FQEvent.enq 0, FQEvent.enq 1, FQEvent.enq 2,
            FQEvent.settled 0 true, FQEvent.settled 1 false].take 5)).startedOrder.length =
      ((FunctionQueue.init 2).runEvents
        ([FQEvent.enq 0, FQEvent.enq 1, FQEvent.enq 2,
          FQEvent.settled 0 true, FQEvent.settled 1 false].take 5)).startedOrder :=
  functionQueue_fifo_and_bounded 2
    [FQEvent.enq 0, FQEvent.enq 1, FQEvent.enq 2,
     FQEvent.settled 0 true, FQEvent.settled 1 false] 5
    (by decide) (by decide)

/-- C5: `clear()` empties the backlog, the active set and the handle list,
cancels every still-pending handle (whether its job was active or never
started), and afterwards the settlement of an already-started job promotes and
starts nothing: the started-job record, the active set and the backlog are
unchanged by a stale settlement, and a canceled handle stays canceled. -/
theorem functionQueue_clear_cancels (q : FunctionQueue) (j : Nat) (ok : Bool) :
    q.clear.queue = [] ∧
    q.clear.activeTasks = [] ∧
    q.clear.funcTasks = [] ∧
    (∀ k, k ∈ q.funcTasks → q.handleState k = some HState.pending →
      q.clear.handleState k = some HState.canceled) ∧
    (q.clear.taskSettled j ok).startedOrder = q.clear.startedOrder ∧
    (q.clear.taskSettled j ok).activeTasks = [] ∧
    (q.clear.taskSettled j ok).queue = [] ∧
    (q.clear.handleState j = some HState.canceled →
      (q.clear.taskSettled j ok).handleState j = some HState.canceled) := by
  refine ⟨rfl, rfl, rfl, ?_, ?_, ?_, ?_, ?_⟩
  · intro k hk hp
    simp [FunctionQueue.clear, hk, hp]
  · simp [FunctionQueue.taskSettled, FunctionQueue.next, FunctionQueue.clear, pullFromArray]
  · simp [FunctionQueue.taskSettled, FunctionQueue.next, FunctionQueue.clear, pullFromArray]
  · simp [FunctionQueue.taskSettled, FunctionQueue.next, FunctionQueue.clear, pullFromArray]
  · intro hc
    have hc' : (if j ∈ q.funcTasks ∧ q.handleState j = some HState.pending
        then some HState.canceled else q.handleState j) = some HState.canceled := hc
    simp [FunctionQueue.taskSettled, FunctionQueue.next, FunctionQueue.clear,
      pullFromArray, hc']

/-- Witness for C5: the spec scenario — five jobs enqueued with maximum
concurrency 2, then `clear()`: all five handles end canceled, everything is
empty, and a stale settlement of the already-started job 0 changes nothing. -/
theorem functionQueue_clear_cancels_witness :
    (((FunctionQueue.init 2).runEvents
        [FQEvent.enq 0, FQEvent.enq 1, FQEvent.enq 2, FQEvent.enq 3,
         FQEvent.enq 4]).clear.handleState 0 = some HState.canceled ∧
      ((FunctionQueue.init 2).runEvents
        [FQEvent.enq 0, FQEvent.enq 1, FQEvent.enq 2, FQEvent.enq 3,
         FQEvent.enq 4]).clear.handleState 4 = some HState.canceled) ∧
    ((FunctionQueue.init 2).runEvents
      [FQEvent.enq 0, FQEvent.enq 1, FQEvent.enq 2, FQEvent.enq 3,
       FQEvent.enq 4]).clear.queue = [] ∧
    (((FunctionQueue.init 2).runEvents
        [FQEvent.enq 0, FQEvent.enq 1, FQEvent.enq 2, FQEvent.enq 3,
         FQEvent.enq 4]).clear.taskSettled 0 true).startedOrder =
      ((FunctionQueue.init 2).runEvents
        [FQEvent.enq 0, FQEvent.enq 1, FQEvent.enq 2, FQEvent.enq 3,
         FQEvent.enq 4]).clear.startedOrder ∧
    (((FunctionQueue.init 2).runEvents
        [FQEvent.enq 0, FQEvent.enq 1, FQEvent.enq 2, FQEvent.enq 3,
         FQEvent.enq 4]).clear.taskSettled 0 true).handleState 0 =
      some HState.canceled := by
  have h := functionQueue_clear_cancels
    ((FunctionQueue.init 2).runEvents
      [FQEvent.enq 0, FQEvent.enq 1, FQEvent.enq 2, FQEvent.enq 3, FQEvent.enq 4]) 0 true
  exact ⟨⟨h.2.2.2.1 0 (by decide) (by decide), h.2.2.2.1 4 (by decide) (by decide)⟩,
    h.1, h.2.2.2.2.1, h.2.2.2.2.2.2.2 (h.2.2.2.1 0 (by decide) (by decide))⟩

/-- C6: with maximum concurrency 1, when jobs `j1` then `j2` are enqueued and
`j1`'s task settles as failed, only `j1`'s handle is rejected — `j2`'s handle
is still pending (not canceled), `j2` is promoted and started at exactly that
settlement, and when `j2` later settles successfully its handle resolves while
`j1`'s stays rejected. -/
theorem functionQueue_failure_isolation (j1 j2 : Nat) (h : j1 ≠ j2) :
    (((FunctionQueue.init 1).enqueue j1).enqueue j2).startedOrder = [j1] ∧
    ((((FunctionQueue.init 1).enqueue j1).enqueue j2).taskSettled j1 false).handleState j1 =
      some HState.rejected ∧
    ((((FunctionQueue.init 1).enqueue j1).enqueue j2).taskSettled j1 false).handleState j2 =
      some HState.pending ∧
    ((((FunctionQueue.init 1).enqueue j1).enqueue j2).taskSettled j1 false).activeTasks = [j2] ∧
    ((((FunctionQueue.init 1).enqueue j1).enqueue j2).taskSettled j1 false).startedOrder =
      [j1, j2] ∧
    (((((FunctionQueue.init 1).enqueue j1).enqueue j2).taskSettled j1 false).taskSettled
        j2 true).handleState j2 = some HState.resolved ∧
    (((((FunctionQueue.init 1).enqueue j1).enqueue j2).taskSettled j1 false).taskSettled
        j2 true).handleState j1 = some HState.rejected := by
  have h' : j2 ≠ j1 := Ne.symm h
  refine ⟨?_, ?_, ?_, ?_, ?_, ?_, ?_⟩ <;>
    simp [FunctionQueue.enqueue, FunctionQueue.next, FunctionQueue.taskSettled,
      FunctionQueue.init, pullFromArray, settleOutcome, h, h']

/-- Witness for C6 at the concrete jobs 0 and 1. -/
theorem functionQueue_failure_isolation_witness :
    (((FunctionQueue.init 1).enqueue 0).enqueue 1).startedOrder = [0] ∧
    ((((FunctionQueue.init 1).enqueue 0).enqueue 1).taskSettled 0 false).handleState 0 =
      some HState.rejected ∧
    ((((FunctionQueue.init 1).enqueue 0).enqueue 1).taskSettled 0 false).handleState 1 =
      some HState.pending ∧
    ((((FunctionQueue.init 1).enqueue 0).enqueue 1).taskSettled 0 false).activeTasks = [1] ∧
    ((((FunctionQueue.init 1).enqueue 0).enqueue 1).taskSettled 0 false).startedOrder =
      [0, 1] ∧
    (((((FunctionQueue.init 1).enqueue 0).enqueue 1).taskSettled 0 false).taskSettled
        1 true).handleState 1 = some HState.resolved ∧
    (((((FunctionQueue.init 1).enqueue 0).enqueue 1).taskSettled 0 false).taskSettled
        1 true).handleState 0 = some HState.rejected :=
  functionQueue_failure_isolation 0 1 (by decide)

/-! ## `_afterRun` teardown (source lines 284-312)

`_afterRun` chains a `finally` callback onto `super._afterRun()`.  The callback
removes the instrumentation hooks, then — when the respective resources exist —
calls `server.stop()` and `tunnel.stop()`, emitting `serverEnd` / `tunnelStop`
when the respective stop succeeds, and attaches to `Promise.all` of the two
stop chains a handler that emits a single `error` event with the first stop
failure and then fulfills, so the original outcome of `super._afterRun()` is
what `_afterRun` settles to.  Externally supplied outcomes (the original run
failure and the two stop results, errors as `Nat` ids) are inputs; the emitted
events are the output trace, linearized in initiation order. -/

inductive TDEvent where
  | removeHooks
  | serverStopCall
  | serverEnd
  | tunnelStopCall
  | tunnelStop
  | errorEvent (e : Nat)
deriving DecidableEq, Repr

structure AfterRunInput where
  runFailure : Option Nat
  hasServer : Bool
  serverStopFailure : Option Nat
  hasTunnel : Bool
  tunnelStopFailure : Option Nat
deriving DecidableEq, Repr

/-- The rejection `Promise.all(promises)` settles to: the first failure among
the pushed stop chains, in the order they were pushed (server first). -/
def firstStopFailure (i : AfterRunInput) : Option Nat :=
  match (if i.hasServer then i.serverStopFailure else none) with
  | some e => some e
  | none => if i.hasTunnel then i.tunnelStopFailure else none

/-- The `finally` callback of `_afterRun` (lines 285-311): events emitted and
the callback's own outcome.  `Promise.all(promises).then(() => {}, error =>
this.emit('error', error))` always fulfills, so the callback never fails. -/
def afterRunTeardown (i : AfterRunInput) : List TDEvent × Option Nat :=
  let events :=
    [TDEvent.removeHooks]
    ++ (if i.hasServer then
          TDEvent.serverStopCall ::
            (match i.serverStopFailure with
              | none => [TDEvent.serverEnd]
              | some _ => [])
        else [])
    ++ (if i.hasTunnel then
          TDEvent.tunnelStopCall ::
            (match i.tunnelStopFailure with
              | none => [TDEvent.tunnelStop]
              | some _ => [])
        else [])
  match firstStopFailure i with
  | some e => (events ++ [TDEvent.errorEvent e], none)
  | none => (events, none)

/-- Semantics of `finally` on a Dojo Task: the original outcome is kept unless
the callback itself fails. -/
def finallyResult (original cbFailure : Option Nat) : Option Nat :=
  match cbFailure with
  | some e => some e
  | none => original

/-- Method `_afterRun` as a whole: the emitted teardown events and the failure the
returned task settles with. -/
def afterRun (i : AfterRunInput) : List TDEvent × Option Nat :=
  ((afterRunTeardown i).1, finallyResult i.runFailure (afterRunTeardown i).2)

/-- C2 counterexample: when both the server stop and the tunnel stop fail, the
tunnel stop's failure is never emitted as an error event — only the first
failure reaches the error channel — refuting "each teardown step's failure is
captured and emitted as a non-fatal error event" as stated. -/
theorem afterRun_not_every_failure_emitted :
    TDEvent.errorEvent 2 ∉
      (afterRun { runFailure := none, hasServer := true, serverStopFailure := some 1,
                  hasTunnel := true, tunnelStopFailure := some 2 }).1 := by
  decide

/-- C2 (amended): whenever a run ends, teardown runs in the fixed order —
remove instrumentation hooks first, then stop the server, then stop the
tunnel — with `serverEnd` / `tunnelStop` emitted for each stop that succeeds;
a stop step's failure does not abort the other stop (both stop calls appear
in the trace exactly when their resource exists), the first stop failure (and
only it, if several steps fail) is emitted as a single non-fatal `error`
event, and the original run failure is never masked or replaced: `_afterRun`
settles exactly as the run did. -/
theorem afterRun_teardown_order_and_preservation (i : AfterRunInput) :
    (afterRun i).1.head? = some TDEvent.removeHooks ∧
    (TDEvent.serverStopCall ∈ (afterRun i).1 ↔ i.hasServer = true) ∧
    (TDEvent.tunnelStopCall ∈ (afterRun i).1 ↔ i.hasTunnel = true) ∧
    (∀ e, firstStopFailure i = some e → TDEvent.errorEvent e ∈ (afterRun i).1) ∧
    (i.hasServer = true → i.hasTunnel = true → i.serverStopFailure = none →
      i.tunnelStopFailure = none →
      (afterRun i).1 = [TDEvent.removeHooks, TDEvent.serverStopCall, TDEvent.serverEnd,
        TDEvent.tunnelStopCall, TDEvent.tunnelStop]) ∧
    (afterRun i).2 = i.runFailure := by
  obtain ⟨rf, hs, sf, ht, tf⟩ := i
  refine ⟨?_, ?_, ?_, ?_, ?_, ?_⟩
  · cases hfs : firstStopFailure ⟨rf, hs, sf, ht, tf⟩ <;>
      simp [afterRun, afterRunTeardown, hfs]
  · cases hfs : firstStopFailure ⟨rf, hs, sf, ht, tf⟩ <;>
      cases hs <;> cases ht <;> cases sf <;> cases tf <;>
        simp_all [afterRun, afterRunTeardown, firstStopFailure]
  · cases hfs : firstStopFailure ⟨rf, hs, sf, ht, tf⟩ <;>
      cases hs <;> cases ht <;> cases sf <;> cases tf <;>
        simp_all [afterRun, afterRunTeardown, firstStopFailure]
  · intro e hfs
    simp [afterRun, afterRunTeardown, hfs]
  · intro h1 h2 h3 h4
    subst h1 h2 h3 h4
    rfl
  · cases hfs : firstStopFailure ⟨rf, hs, sf, ht, tf⟩ <;>
      simp [afterRun, afterRunTeardown, finallyResult, hfs]

/-- Witness for C2 (amended): a full success teardown trace, and an input with
a failing server stop whose failure reaches the error channel while the
original run failure is preserved. -/
theorem afterRun_teardown_order_and_preservation_witness :
    (afterRun { runFailure := none, hasServer := true, serverStopFailure := none,
                hasTunnel := true, tunnelStopFailure := none }).1 =
      [TDEvent.removeHooks, TDEvent.serverStopCall, TDEvent.serverEnd,
       TDEvent.tunnelStopCall, TDEvent.tunnelStop] ∧
    TDEvent.errorEvent 7 ∈
      (afterRun { runFailure := some 3, hasServer := true, serverStopFailure := some 7,
                  hasTunnel := true, tunnelStopFailure := none }).1 ∧
    (afterRun { runFailure := some 3, hasServer := true, serverStopFailure := some 7,
                hasTunnel := true, tunnelStopFailure := none }).2 = some 3 := by
  refine ⟨(afterRun_teardown_order_and_preservation
      { runFailure := none, hasServer := true, serverStopFailure := none,
        hasTunnel := true, tunnelStopFailure := none }).2.2.2.2.1 rfl rfl rfl rfl, ?_, ?_⟩
  · exact (afterRun_teardown_order_and_preservation
      { runFailure := some 3, hasServer := true, serverStopFailure := some 7,
        hasTunnel := true, tunnelStopFailure := none }).2.2.2.1 7 (by decide)
  · exact (afterRun_teardown_order_and_preservation
      { runFailure := some 3, hasServer := true, serverStopFailure := some 7,
        hasTunnel := true, tunnelStopFailure := none }).2.2.2.2.2

/-! ## Session-suite teardown hook (source lines 485-522)

The session suite's `after` hook reads the suite tree built during the run.
`Suite` itself lives in `../Suite` (not under `src/`), so its failure data is
modelled from the spec: a suite node carries an optional suite-level error and
an ordered list of children, each child a test (passed or failed) or a nested
suite, and the derived failed-test count is computed recursively over the
subtree ("a suite's pass/fail status must be computed by recursively
inspecting children"; "derived counts (failed-test count)"). -/

/-- Modelled from the spec: a node of the `Suite` tree — either a test with
its pass/fail outcome, or a nested suite with its own suite-level error flag
(`suite.error != null`) and children (`suite.tests`). -/
inductive STree where
  | test (failed : Bool) : STree
  | suite (hasOwnError : Bool) (children : List STree) : STree

/-- Modelled from the spec: `isSuite` from `../Suite` — whether a child node is
a nested suite. -/
def STree.isSuiteNode : STree → Bool
  | STree.suite _ _ => true
  | STree.test _ => false

mutual

/-- Modelled from the spec: `Suite#numFailedTests`, the derived failed-test
count of the whole subtree. On a test node it is the test's own failure. -/
def STree.numFailedTests : STree → Nat
  | STree.test failed => if failed then 1 else 0
  | STree.suite _ children => numFailedTestsList children

def numFailedTestsList : List STree → Nat
  | [] => 0
  | c :: rest => c.numFailedTests + numFailedTestsList rest

end

mutual

/-- Function `hasError` from the `after` hook (lines 495-505): a suite is erroneous if
it has a suite-level error, a positive failed-test count, or an erroneous
sub-suite (`suite.tests.filter(isSuite).some(hasError)`; a test node is never
erroneous, which is exactly what filtering to sub-suites achieves). -/
def STree.hasError : STree → Bool
  | STree.test _ => false
  | STree.suite err children =>
    err || decide (0 < numFailedTestsList children) || hasErrorAny children

def hasErrorAny : List STree → Bool
  | [] => false
  | c :: rest => c.hasError || hasErrorAny rest

end

/-- The `leaveRemoteOpen` configuration: `true` / `false` / `'fail'`. -/
inductive LeaveRemoteOpen where
  | always
  | never
  | onFail
deriving DecidableEq, Repr

/-- Observable calls made by the `after` hook: closing the remote handle
(`remote.quit()`) and reporting the verdict
(`tunnel.sendJobState(sessionId, { success })`). -/
inductive SessionEvent where
  | quitCall
  | sendJobState (sessionId : Nat) (success : Bool)
deriving DecidableEq, Repr

/-- The `after` hook (lines 485-522): with no remote handle nothing happens;
otherwise `endSession` reports `success = !hasError(this)` to the tunnel keyed
by the remote session id.  With `leaveRemoteOpen === true`, or
`leaveRemoteOpen === 'fail'` and `this.numFailedTests > 0`, only `endSession`
runs; otherwise `remote.quit().finally(endSession)` runs — the quit call first,
then the verdict report regardless of the quit outcome `quitOk`. -/
def suiteAfter (hasRemote : Bool) (policy : LeaveRemoteOpen) (sessionId : Nat)
    (root : STree) (quitOk : Bool) : List SessionEvent :=
  if hasRemote then
    let endSession := [SessionEvent.sendJobState sessionId (!root.hasError)]
    if policy = LeaveRemoteOpen.always ∨
        (policy = LeaveRemoteOpen.onFail ∧ 0 < root.numFailedTests) then
      endSession
    else
      SessionEvent.quitCall :: endSession
  else []

example :
    suiteAfter true LeaveRemoteOpen.never 5 (STree.suite false [STree.test true]) true =
      [SessionEvent.quitCall, SessionEvent.sendJobState 5 false] := by decide

/-- C3 counterexample: in the closing path the quit call strictly precedes the
verdict report — the verdict is reported to the tunnel only after the remote
handle is closed, refuting "the verdict is reported ... before the remote
handle is closed". -/
theorem suiteAfter_report_not_before_quit :
    suiteAfter true LeaveRemoteOpen.never 0 (STree.suite false []) true =
      [SessionEvent.quitCall, SessionEvent.sendJobState 0 true] ∧
    ¬ List.indexOf (SessionEvent.sendJobState 0 true)
        (suiteAfter true LeaveRemoteOpen.never 0 (STree.suite false []) true) <
      List.indexOf SessionEvent.quitCall
        (suiteAfter true LeaveRemoteOpen.never 0 (STree.suite false []) true) := by
  decide

/-- C3 (amended): in every session suite teardown with a live remote handle,
the computed success/failure verdict is reported to the tunnel keyed by the
remote session's identifier, and the report happens whether or not the close
call itself succeeds (the trace does not depend on the quit outcome); but in
the closing path the report happens immediately after the close call, not
before it. -/
theorem suiteAfter_verdict_always_reported (policy : LeaveRemoteOpen) (sessionId : Nat)
    (root : STree) (quitOk : Bool) :
    suiteAfter true policy sessionId root quitOk =
      suiteAfter true policy sessionId root true ∧
    SessionEvent.sendJobState sessionId (!root.hasError) ∈
      suiteAfter true policy sessionId root quitOk ∧
    (SessionEvent.quitCall ∈ suiteAfter true policy sessionId root quitOk →
      suiteAfter true policy sessionId root quitOk =
        [SessionEvent.quitCall, SessionEvent.sendJobState sessionId (!root.hasError)]) := by
  by_cases hp : policy = LeaveRemoteOpen.always ∨
      (policy = LeaveRemoteOpen.onFail ∧ 0 < root.numFailedTests)
  · refine ⟨rfl, ?_, ?_⟩
    · simp [suiteAfter, hp]
    · intro hq
      simp [suiteAfter, hp] at hq
  · refine ⟨rfl, ?_, ?_⟩
    · simp [suiteAfter, hp]
    · intro _
      simp [suiteAfter, hp]

/-- Witness for C3 (amended), with the `'fail'` policy and a failing subtree
(the verdict report happens without any close) and with the `false` policy
(the close happens and the report follows it). -/
theorem suiteAfter_verdict_always_reported_witness :
    SessionEvent.sendJobState 3 false ∈
      suiteAfter true LeaveRemoteOpen.onFail 3 (STree.suite false [STree.test true]) false ∧
    suiteAfter true LeaveRemoteOpen.never 3 (STree.suite false [STree.test true]) false =
      [SessionEvent.quitCall, SessionEvent.sendJobState 3 false] := by
  constructor
  · have h := (suiteAfter_verdict_always_reported LeaveRemoteOpen.onFail 3
      (STree.suite false [STree.test true]) false).2.1
    simpa using h
  · have h := (suiteAfter_verdict_always_reported LeaveRemoteOpen.never 3
      (STree.suite false [STree.test true]) false).2.2 (by decide)
    simpa using h

/-- C4 counterexample: a session suite with a suite-level error but zero failed
tests is erroneous (`hasError` is true, and the verdict reported to the tunnel
is failure), yet with policy `'fail'` the remote handle is still closed —
refuting "the remote handle is left open exactly when the suite's subtree is
erroneous". -/
theorem suiteAfter_leaveOpen_not_hasError :
    STree.hasError (STree.suite true []) = true ∧
    SessionEvent.quitCall ∈
      suiteAfter true LeaveRemoteOpen.onFail 0 (STree.suite true []) true ∧
    SessionEvent.sendJobState 0 false ∈
      suiteAfter true LeaveRemoteOpen.onFail 0 (STree.suite true []) true := by
  decide

/-- C4 (amended): with the leave-remote-open policy `'fail'`, the remote handle
is left open at session-suite teardown exactly when the suite's subtree has at
least one failed test (`numFailedTests > 0`; a suite-level error alone does not
prevent closing), and in either case the verdict — computed from the recursive
`hasError` check — is reported to the tunnel. -/
theorem suiteAfter_leaveOpen_onFail (sessionId : Nat) (root : STree) (quitOk : Bool) :
    (SessionEvent.quitCall ∉ suiteAfter true LeaveRemoteOpen.onFail sessionId root quitOk ↔
      0 < root.numFailedTests) ∧
    SessionEvent.sendJobState sessionId (!root.hasError) ∈
      suiteAfter true LeaveRemoteOpen.onFail sessionId root quitOk := by
  by_cases hf : 0 < root.numFailedTests
  · constructor
    · simp [suiteAfter, hf]
    · simp [suiteAfter, hf]
  · constructor
    · simp [suiteAfter, hf]
    · simp [suiteAfter, hf]

/-! ## `_beforeRun` entry decision (source lines 314-413)

The remote/session machinery is entered only inside the branch guarded by
`(config.environments.length > 0 && config.functionalSuites.length +
config.suites.length + config.browser.suites.length > 0) || config.serveOnly`.
Inside it the server is started; in serve-only mode the run then suspends with
no tunnel and no session suites, otherwise the tunnel is constructed, session
suites are built and the tunnel is started.  Outside the branch the method
returns immediately: no server, no tunnel, no session suites. -/

structure NodeRunConfig where
  environments : List String
  functionalSuites : List String
  suites : List String
  browserSuites : List String
  nodeSuites : List String
  serveOnly : Bool
deriving DecidableEq, Repr

structure BeforeRunActions where
  serverStarted : Bool
  tunnelStarted : Bool
  sessionSuitesBuilt : Bool
deriving DecidableEq, Repr

/-- The stages `_beforeRun` engages, from the branch structure of lines
323-412. -/
def nodeBeforeRun (c : NodeRunConfig) : BeforeRunActions :=
  if (0 < c.environments.length ∧
        0 < c.functionalSuites.length + c.suites.length + c.browserSuites.length) ∨
      c.serveOnly = true then
    if c.serveOnly then
      { serverStarted := true, tunnelStarted := false, sessionSuitesBuilt := false }
    else
      { serverStarted := true, tunnelStarted := true, sessionSuitesBuilt := true }
  else
    { serverStarted := false, tunnelStarted := false, sessionSuitesBuilt := false }

/-- C7: the Server/Tunnel/session-suite machinery is engaged iff the declared
environments list is nonempty and at least one suite is declared among the
functional suites, the executor's unit suites and the browser-side suites, or
serve-only mode is requested; otherwise all three stages are skipped entirely.
(The suite lists the source counts are `config.functionalSuites`,
`config.suites` — the Node executor's own suites — and
`config.browser.suites`; `config.node.suites` does not participate.) -/
theorem nodeBeforeRun_entry_decision (c : NodeRunConfig) :
    (((nodeBeforeRun c).serverStarted = true ∨ (nodeBeforeRun c).tunnelStarted = true ∨
        (nodeBeforeRun c).sessionSuitesBuilt = true) ↔
      ((c.environments ≠ [] ∧
          0 < c.functionalSuites.length + c.suites.length + c.browserSuites.length) ∨
        c.serveOnly = true)) ∧
    (¬ ((c.environments ≠ [] ∧
          0 < c.functionalSuites.length + c.suites.length + c.browserSuites.length) ∨
        c.serveOnly = true) →
      nodeBeforeRun c =
        { serverStarted := false, tunnelStarted := false, sessionSuitesBuilt := false }) := by
  have hne : c.environments ≠ [] ↔ 0 < c.environments.length := by
    simp [List.length_pos]
  by_cases hcond : (0 < c.environments.length ∧
      0 < c.functionalSuites.length + c.suites.length + c.browserSuites.length) ∨
      c.serveOnly = true
  · have hrhs : (c.environments ≠ [] ∧
        0 < c.functionalSuites.length + c.suites.length + c.browserSuites.length) ∨
        c.serveOnly = true := by
      rcases hcond with ⟨h1, h2⟩ | h3
      · exact Or.inl ⟨hne.mpr h1, h2⟩
      · exact Or.inr h3
    have hlhs : (nodeBeforeRun c).serverStarted = true := by
      unfold nodeBeforeRun
      rw [if_pos hcond]
      cases hso : c.serveOnly <;> simp [hso]
    exact ⟨iff_of_true (Or.inl hlhs) hrhs, fun hn => absurd hrhs hn⟩
  · have hrhs : ¬ ((c.environments ≠ [] ∧
        0 < c.functionalSuites.length + c.suites.length + c.browserSuites.length) ∨
        c.serveOnly = true) := by
      intro h
      apply hcond
      rcases h with ⟨h1, h2⟩ | h3
      · exact Or.inl ⟨hne.mp h1, h2⟩
      · exact Or.inr h3
    have hrun : nodeBeforeRun c =
        { serverStarted := false, tunnelStarted := false, sessionSuitesBuilt := false } := by
      unfold nodeBeforeRun
      rw [if_neg hcond]
    refine ⟨iff_of_false ?_ hrhs, fun _ => hrun⟩
    rw [hrun]
    simp

/-- The configuration of the C7 witness scenario that engages the remote
machinery: one environment, one functional suite, serve-only off. -/
def cfgEngaged : NodeRunConfig :=
  { environments := ["chrome"], functionalSuites := ["f.js"], suites := [],
    browserSuites := [], nodeSuites := [], serveOnly := false }

/-- The configuration of the C7 witness scenario that stays purely local:
no environments, serve-only off. -/
def cfgLocal : NodeRunConfig :=
  { environments := [], functionalSuites := ["f.js"], suites := [],
    browserSuites := [], nodeSuites := [], serveOnly := false }

/-- Witness for C7: with one environment and one functional suite the
machinery is engaged; with no environments and serve-only off nothing is. -/
theorem nodeBeforeRun_entry_decision_witness :
    ((nodeBeforeRun cfgEngaged).serverStarted = true ∨
      (nodeBeforeRun cfgEngaged).tunnelStarted = true ∨
      (nodeBeforeRun cfgEngaged).sessionSuitesBuilt = true) ∧
    nodeBeforeRun cfgLocal =
      { serverStarted := false, tunnelStarted := false, sessionSuitesBuilt := false } := by
  constructor
  · exact (nodeBeforeRun_entry_decision cfgEngaged).1.mpr (Or.inl ⟨by decide, by decide⟩)
  · exact (nodeBeforeRun_entry_decision cfgLocal).2 (by decide)

/-! ## `instrumentCode` (source lines 210-240)

External collaborators appear as function parameters: `readSourceMap` (from
`../node/util`), path normalization, and the istanbul instrumenter, which on
success yields the rewritten code together with `lastFileCoverage()` (the
coverage baseline) and `lastSourceMap()` (the rewritten-source map), and on
failure throws an error with a message.  Source maps and baselines are `Nat`
ids.  The executor state collects the two map stores, the process-wide
coverage map (as the list of added per-file baselines) and emitted events. -/

inductive NodeEvent where
  | warning (message : String)
deriving DecidableEq, Repr

structure InstrumentState where
  sourceMaps : List (String × Nat)
  instrumentedMaps : List (String × Nat)
  coverageMap : List Nat
  events : List NodeEvent
deriving DecidableEq, Repr

/-- Method `instrumentCode(code, filename)`: register any pre-existing source map,
then try to instrument; on success add the baseline to the coverage map and
register the instrumented source map under the file path and return the
rewritten code; on failure emit a warning naming the file and the error
message and return the original code. -/
def instrumentCode
    (readSrcMap : String → String → Option Nat)
    (normalizePath : String → String)
    (instrumentSync : String → String → Option Nat → Except String (String × Nat × Nat))
    (st : InstrumentState) (code filename : String) : String × InstrumentState :=
  let sourceMap := readSrcMap filename code
  let st1 :=
    match sourceMap with
    | some m => { st with sourceMaps := st.sourceMaps ++ [(filename, m)] }
    | none => st
  match instrumentSync code (normalizePath filename) sourceMap with
  | Except.ok (newCode, baseline, lastMap) =>
    (newCode,
      { st1 with
        coverageMap := st1.coverageMap ++ [baseline]
        instrumentedMaps := st1.instrumentedMaps ++ [(filename, lastMap)] })
  | Except.error msg =>
    (code,
      { st1 with
        events := st1.events ++
          [NodeEvent.warning ("Error instrumenting " ++ filename ++ ": " ++ msg)] })

/-- C8: if the instrumenter throws, a warning event whose message names the
file and carries the error message is emitted, the original source string is
returned unchanged, and neither the coverage map nor the instrumented-map
store is touched; if it succeeds, the rewritten source is returned, the
coverage baseline is appended to the process-wide coverage map, and the
instrumented source map is registered under the file path. -/
theorem instrumentCode_failure_and_success
    (readSrcMap : String → String → Option Nat) (normalizePath : String → String)
    (instrumentSync : String → String → Option Nat → Except String (String × Nat × Nat))
    (st : InstrumentState) (code filename : String) :
    (∀ msg,
      instrumentSync code (normalizePath filename) (readSrcMap filename code) =
          Except.error msg →
      (instrumentCode readSrcMap normalizePath instrumentSync st code filename).1 = code ∧
      (instrumentCode readSrcMap normalizePath instrumentSync st code filename).2.events =
        st.events ++
          [NodeEvent.warning ("Error instrumenting " ++ filename ++ ": " ++ msg)] ∧
      (instrumentCode readSrcMap normalizePath instrumentSync st code filename).2.coverageMap =
        st.coverageMap ∧
      (instrumentCode readSrcMap normalizePath instrumentSync st code
          filename).2.instrumentedMaps = st.instrumentedMaps) ∧
    (∀ newCode baseline lastMap,
      instrumentSync code (normalizePath filename) (readSrcMap filename code) =
          Except.ok (newCode, baseline, lastMap) →
      (instrumentCode readSrcMap normalizePath instrumentSync st code filename).1 = newCode ∧
      (instrumentCode readSrcMap normalizePath instrumentSync st code filename).2.coverageMap =
        st.coverageMap ++ [baseline] ∧
      (instrumentCode readSrcMap normalizePath instrumentSync st code
          filename).2.instrumentedMaps = st.instrumentedMaps ++ [(filename, lastMap)]) := by
  constructor
  · intro msg hinstr
    cases hsm : readSrcMap filename code <;>
      simp [instrumentCode, hsm, hsm ▸ hinstr]
  · intro newCode baseline lastMap hinstr
    cases hsm : readSrcMap filename code <;>
      simp [instrumentCode, hsm, hsm ▸ hinstr]

/-- Witness for C8: a concrete failing instrumenter and a concrete succeeding
one. -/
theorem instrumentCode_failure_and_success_witness :
    ((instrumentCode (fun _ _ => none) id (fun _ _ _ => Except.error "boom")
        { sourceMaps := [], instrumentedMaps := [], coverageMap := [], events := [] }
        "source" "f.js").1 = "source" ∧
      (instrumentCode (fun _ _ => none) id (fun _ _ _ => Except.error "boom")
        { sourceMaps := [], instrumentedMaps := [], coverageMap := [], events := [] }
        "source" "f.js").2.events =
        [] ++ [NodeEvent.warning ("Error instrumenting " ++ "f.js" ++ ": " ++ "boom")]) ∧
    ((instrumentCode (fun _ _ => none) id (fun _ _ _ => Except.ok ("rewritten", 4, 9))
        { sourceMaps := [], instrumentedMaps := [], coverageMap := [], events := [] }
        "source" "f.js").1 = "rewritten" ∧
      (instrumentCode (fun _ _ => none) id (fun _ _ _ => Except.ok ("rewritten", 4, 9))
        { sourceMaps := [], instrumentedMaps := [], coverageMap := [], events := [] }
        "source" "f.js").2.coverageMap = [] ++ [4] ∧
      (instrumentCode (fun _ _ => none) id (fun _ _ _ => Except.ok ("rewritten", 4, 9))
        { sourceMaps := [], instrumentedMaps := [], coverageMap := [], events := [] }
        "source" "f.js").2.instrumentedMaps = [] ++ [("f.js", 9)]) := by
  constructor
  · have h := (instrumentCode_failure_and_success (fun _ _ => none) id
      (fun _ _ _ => Except.error "boom")
      { sourceMaps := [], instrumentedMaps := [], coverageMap := [], events := [] }
      "source" "f.js").1 "boom" rfl
    exact ⟨h.1, h.2.1⟩
  · have h := (instrumentCode_failure_and_success (fun _ _ => none) id
      (fun _ _ _ => Except.ok ("rewritten", 4, 9))
      { sourceMaps := [], instrumentedMaps := [], coverageMap := [], events := [] }
      "source" "f.js").2 "rewritten" 4 9 rfl
    exact h

/-! ## Process-wide uncaught-failure handlers (source lines 128-152)

The constructor registers `unhandledRejection` and `uncaughtException`
handlers.  Error objects are mutable: they are modelled as `Nat` ids with a
heap `messages : Nat → String` giving each object's current `message`.  Each
handler first warns on the console when no `error` listener is registered,
then mutates the failure object's message with a distinguishing prefix, then
emits the same object as an `error` event. -/

inductive ConsoleLine where
  | warn (label : String)
deriving DecidableEq, Repr

structure UncaughtResult where
  messages : Nat → String
  emitted : List Nat
  consoleOutput : List ConsoleLine

/-- The `unhandledRejection` handler (lines 129-141). -/
def onUnhandledRejection (errorListenerCount : Nat) (messages : Nat → String)
    (reasonId : Nat) : UncaughtResult :=
  { messages := fun i =>
      if i = reasonId then "Unhandled rejection: " ++ messages i else messages i
    emitted := [reasonId]
    consoleOutput :=
      if errorListenerCount = 0 then [ConsoleLine.warn "Unhandled rejection:"] else [] }

/-- The `uncaughtException` handler (lines 143-152). -/
def onUncaughtException (errorListenerCount : Nat) (messages : Nat → String)
    (reasonId : Nat) : UncaughtResult :=
  { messages := fun i =>
      if i = reasonId then "Uncaught exception: " ++ messages i else messages i
    emitted := [reasonId]
    consoleOutput :=
      if errorListenerCount = 0 then [ConsoleLine.warn "Unhandled error:"] else [] }

/-- C9: with no `error` listener registered, an unhandled rejection (resp. an
uncaught exception) is re-emitted as an `error` event carrying the original
failure object, whose `message` has been mutated in place to carry the
"Unhandled rejection: " (resp. "Uncaught exception: ") prefix before the
re-emission, and the failure is also surfaced on the console. -/
theorem uncaught_failures_relabeled_and_emitted (n : Nat) (messages : Nat → String)
    (reasonId : Nat) (h : n = 0) :
    ((onUnhandledRejection n messages reasonId).messages reasonId =
        "Unhandled rejection: " ++ messages reasonId ∧
      (onUnhandledRejection n messages reasonId).emitted = [reasonId] ∧
      (onUnhandledRejection n messages reasonId).consoleOutput ≠ []) ∧
    ((onUncaughtException n messages reasonId).messages reasonId =
        "Uncaught exception: " ++ messages reasonId ∧
      (onUncaughtException n messages reasonId).emitted = [reasonId] ∧
      (onUncaughtException n messages reasonId).consoleOutput ≠ []) := by
  subst h
  refine ⟨⟨?_, rfl, ?_⟩, ⟨?_, rfl, ?_⟩⟩ <;>
    simp [onUnhandledRejection, onUncaughtException]

/-- Witness for C9 at a concrete heap and failure object. -/
theorem uncaught_failures_relabeled_and_emitted_witness :
    ((onUnhandledRejection 0 (fun _ => "kaboom") 6).messages 6 =
        "Unhandled rejection: " ++ (fun _ : Nat => "kaboom") 6 ∧
      (onUnhandledRejection 0 (fun _ => "kaboom") 6).emitted = [6] ∧
      (onUnhandledRejection 0 (fun _ => "kaboom") 6).consoleOutput ≠ []) ∧
    ((onUncaughtException 0 (fun _ => "kaboom") 6).messages 6 =
        "Uncaught exception: " ++ (fun _ : Nat => "kaboom") 6 ∧
      (onUncaughtException 0 (fun _ => "kaboom") 6).emitted = [6] ∧
      (onUncaughtException 0 (fun _ => "kaboom") 6).consoleOutput ≠ []) :=
  uncaught_failures_relabeled_and_emitted 0 (fun _ => "kaboom") 6 rfl

/-! ## The `coverage` branch of `_processOption` (source lines 618-629)

`_processOption('coverage', value)` first tries `parseValue(name, value,
'boolean')`; if that throws it falls back to `parseValue(name, value,
'string[]')`; a resulting boolean other than `false` is rejected with
`"Non-false boolean for 'coverage'"`, anything else is set.  `parseValue`
itself lives in `../common/util`, outside `src/`, and is modelled from the
spec's configuration schema ("one declaration per option naming its type
(boolean/string/string-list/...)"). -/

/-- A raw configuration value as it reaches `_processOption`. -/
inductive OptionValue where
  | boolVal (b : Bool)
  | strVal (s : String)
  | strListVal (l : List String)
  | numVal (n : Nat)
deriving DecidableEq, Repr

/-- Modelled from the spec: `parseValue(name, value, 'boolean')` — accept a
boolean (or its string spelling), throw on anything else. -/
def parseBooleanValue : OptionValue → Except String Bool
  | OptionValue.boolVal b => Except.ok b
  | OptionValue.strVal "true" => Except.ok true
  | OptionValue.strVal "false" => Except.ok false
  | _ => Except.error "malformed value"

/-- Modelled from the spec: `parseValue(name, value, 'string[]')` — accept a
list of strings, promote a single string to a one-element list, throw on
anything else. -/
def parseStringListValue : OptionValue → Except String (List String)
  | OptionValue.strVal s => Except.ok [s]
  | OptionValue.strListVal l => Except.ok l
  | _ => Except.error "malformed value"

/-- The value stored for the `coverage` option: `false | string[]`. -/
inductive CoverageSetting where
  | boolSetting (b : Bool)
  | listSetting (l : List String)
deriving DecidableEq, Repr

/-- The `coverage` case of `_processOption` (lines 618-629): the parsed value
that `_setOption` receives, or the thrown error. -/
def processCoverageOption (value : OptionValue) : Except String CoverageSetting :=
  let parsed : Except String CoverageSetting :=
    match parseBooleanValue value with
    | Except.ok b => Except.ok (CoverageSetting.boolSetting b)
    | Except.error _ =>
      match parseStringListValue value with
      | Except.ok l => Except.ok (CoverageSetting.listSetting l)
      | Except.error e => Except.error e
  match parsed with
  | Except.ok (CoverageSetting.boolSetting b) =>
    if b then Except.error "Non-false boolean for 'coverage'"
    else Except.ok (CoverageSetting.boolSetting b)
  | other => other

/-- C10: any value coercible to the boolean `true` (in particular
`coverage: true`) makes the `coverage` option throw, so the option is never
set to a truthy boolean; every accepted value is either the boolean `false`
or a list of strings. -/
theorem processCoverageOption_rejects_true (value : OptionValue) :
    (parseBooleanValue value = Except.ok true →
      processCoverageOption value = Except.error "Non-false boolean for 'coverage'") ∧
    (∀ r, processCoverageOption value = Except.ok r →
      r = CoverageSetting.boolSetting false ∨ ∃ l, r = CoverageSetting.listSetting l) := by
  constructor
  · intro hb
    simp [processCoverageOption, hb]
  · intro r hr
    unfold processCoverageOption at hr
    cases hb : parseBooleanValue value with
    | ok b =>
      rw [hb] at hr
      cases b with
      | false =>
        simp at hr
        exact Or.inl hr.symm
      | true => simp at hr
    | error e =>
      rw [hb] at hr
      cases hs : parseStringListValue value with
      | ok l =>
        rw [hs] at hr
        simp at hr
        exact Or.inr ⟨l, hr.symm⟩
      | error e2 =>
        rw [hs] at hr
        simp at hr

/-- Witness for C10: `coverage: true` throws; `coverage: ["a", "b"]` is
accepted as a string list. -/
theorem processCoverageOption_rejects_true_witness :
    processCoverageOption (OptionValue.boolVal true) =
      Except.error "Non-false boolean for 'coverage'" ∧
    (CoverageSetting.listSetting ["a", "b"] = CoverageSetting.boolSetting false ∨
      ∃ l, CoverageSetting.listSetting ["a", "b"] = CoverageSetting.listSetting l) := by
  constructor
  · exact (processCoverageOption_rejects_true (OptionValue.boolVal true)).1 rfl
  · exact (processCoverageOption_rejects_true (OptionValue.strListVal ["a", "b"])).2
      (CoverageSetting.listSetting ["a", "b"]) rfl
